import Mathlib

/-!
Shallow embedding of the Offline Cache Controller in `src/sw.js`:
a service worker with an install phase (`caches.open` + `cache.addAll`),
an activate phase (delete every cache whose name differs from the current
version string), and a fetch-interception handler (network first, then
cache lookup with `ignoreSearch`, then the offline fallback document).

Cache storage is modelled as an association list from cache names to
caches; a cache is a list of (URL, response) entries.  `caches.open`
creates an empty cache when the name is absent, exactly as the Cache
Storage API does.  `cache.addAll` is the batch operation of the Cache
API: it fetches every URL first and writes nothing when any fetch fails;
on success each entry is written with put semantics (entries whose URL
equals the written URL are replaced).  A network is a function from
requests to `Option Response`: `none` is a transport-level failure (no
response at all), `some r` is any HTTP response, including 4xx/5xx.
-/

namespace CtcSW

/-- A URL, split into its path and its optional query string, so that
`ignoreSearch` lookups (which compare paths only) can be expressed. -/
structure Url where
  path : String
  query : Option String
deriving DecidableEq, Repr

/-- An HTTP response snapshot: status and body stand in for the stored
(status, headers, body) triple. -/
structure Response where
  status : Nat
  body : String
deriving DecidableEq, Repr

/-- An HTTP request: a method and a URL. -/
structure Request where
  method : String
  url : Url
deriving DecidableEq, Repr

/-- A cache: stored entries mapping a request URL to a response. -/
abbrev Cache := List (Url × Response)

/-- The cache storage: named caches (generations). -/
abbrev CacheStorage := List (String × Cache)

/-- A network: `none` models a transport-level failure, `some r` any
HTTP response the origin chose to give. -/
abbrev Network := Request → Option Response

/-- The constant `CACHE_NAME = "ctc-static-v1"` of `sw.js`. -/
def CACHE_NAME : String := "ctc-static-v1"

/-- The constant `OFFLINE_URL = "/offline.html"` of `sw.js`. -/
def OFFLINE_URL : Url := ⟨"/offline.html", none⟩

/-- The constant `CORE_ASSETS` of `sw.js`. -/
def CORE_ASSETS : List Url :=
  [⟨"/", none⟩, ⟨"/offline.html", none⟩, ⟨"/about/", none⟩,
   ⟨"/events/", none⟩, ⟨"/team/", none⟩]

/-- The names of the existing caches (`caches.keys()`). -/
def cacheNames (cs : CacheStorage) : List String :=
  cs.map Prod.fst

/-- The `caches.open(name)` operation: returns the storage after the
call, creating an empty cache under `name` when none exists. -/
def cachesOpen (name : String) (cs : CacheStorage) : CacheStorage :=
  if name ∈ cacheNames cs then cs else cs ++ [(name, [])]

/-- The entries of the cache stored under `name` (empty when absent). -/
def entriesOf (name : String) (cs : CacheStorage) : Cache :=
  ((cs.find? (fun p => p.1 == name)).map Prod.snd).getD []

/-- One write of the Cache API batch operation: entries with the same
request URL are deleted, then the new entry is appended. -/
def cachePut (u : Url) (r : Response) (c : Cache) : Cache :=
  c.filter (fun e => !(e.1 == u)) ++ [(u, r)]

/-- The write phase of `cache.addAll`: put every fetched entry in
order. -/
def addEntries (es : List (Url × Response)) (c : Cache) : Cache :=
  es.foldl (fun acc e => cachePut e.1 e.2 acc) c

/-- The GET request issued for a URL by `cache.addAll`'s fetch phase. -/
def getReq (u : Url) : Request :=
  ⟨"GET", u⟩

/-- Whether a response has an ok status (2xx): the condition `cache.addAll`
checks on every fetched response before storing anything. -/
def Response.ok (r : Response) : Bool :=
  decide (200 ≤ r.status ∧ r.status < 300)

/-- The fetch phase of `cache.addAll`: fetch every URL; when any fetch
fails at the transport level, or yields a response whose status is not
ok (not 2xx), the whole operation rejects and no entry is produced. -/
def fetchEntries (net : Network) : List Url → Option (List (Url × Response))
  | [] => some []
  | u :: us =>
    match net (getReq u), fetchEntries net us with
    | some r, some es => if r.ok then some ((u, r) :: es) else none
    | _, _ => none

/-- Rewrite the cache stored under `name` with `f`, leaving the other
caches untouched. -/
def modifyCache (name : String) (f : Cache → Cache) (cs : CacheStorage) : CacheStorage :=
  cs.map (fun p => if p.1 = name then (p.1, f p.2) else p)

/-- The install handler of `sw.js`: open (create if absent) the cache
named `CACHE_NAME`, then `addAll(CORE_ASSETS)`.  Returns whether the
install succeeded together with the cache storage afterwards: on an
`addAll` failure nothing is written, but the cache opened by
`caches.open` remains. -/
def installStep (net : Network) (cs : CacheStorage) : Bool × CacheStorage :=
  let cs1 := cachesOpen CACHE_NAME cs
  match fetchEntries net CORE_ASSETS with
  | none => (false, cs1)
  | some es => (true, modifyCache CACHE_NAME (addEntries es) cs1)

/-- The activate handler of `sw.js`: delete every cache whose name is
not `CACHE_NAME`. -/
def activateStep (cs : CacheStorage) : CacheStorage :=
  cs.filter (fun p => p.1 == CACHE_NAME)

/-- The `cache.match` lookup with the `ignoreSearch` option set: the first
stored entry whose URL path equals the looked-up path, the query strings
of both sides ignored. -/
def matchIgnoreSearch (c : Cache) (u : Url) : Option Response :=
  (c.find? (fun e => e.1.path == u.path)).map Prod.snd

/-- What the fetch handler does with an intercepted request: either it
returns without calling `respondWith` (non-GET pass-through), or it
resolves `respondWith` with `some` response, or with no response at all
(`undefined`, modelled as `respond none`). -/
inductive FetchOutcome where
  | passThrough
  | respond (r : Option Response)
deriving DecidableEq, Repr

/-- The fetch handler of `sw.js`: non-GET requests pass through; for a
GET request try the network first; on a transport failure open the
cache, look the request up with `ignoreSearch`, and fall back to the
offline document.  Returns the outcome and the cache storage after
handling. -/
def fetchHandler (net : Network) (cs : CacheStorage) (req : Request) :
    FetchOutcome × CacheStorage :=
  if req.method ≠ "GET" then (.passThrough, cs)
  else
    match net req with
    | some fresh => (.respond (some fresh), cs)
    | none =>
      let cs1 := cachesOpen CACHE_NAME cs
      let c := entriesOf CACHE_NAME cs1
      let cached := matchIgnoreSearch c req.url
      (.respond (cached.orElse (fun _ => matchIgnoreSearch c OFFLINE_URL)), cs1)

/-! Storage lemmas shared by the claim theorems. -/

theorem find?_name_eq_none {n : String} {cs : CacheStorage} (h : n ∉ cacheNames cs) :
    cs.find? (fun p => p.1 == n) = none := by
  rw [List.find?_eq_none]
  intro p hp hbeq
  apply h
  have hp1 : p.1 = n := by simpa using hbeq
  exact hp1 ▸ List.mem_map_of_mem Prod.fst hp

theorem entriesOf_eq_nil_of_not_mem {n : String} {cs : CacheStorage}
    (h : n ∉ cacheNames cs) : entriesOf n cs = [] := by
  simp [entriesOf, find?_name_eq_none h]

theorem entriesOf_cachesOpen (n m : String) (cs : CacheStorage) :
    entriesOf n (cachesOpen m cs) = entriesOf n cs := by
  unfold cachesOpen
  split
  · rfl
  · rename_i hm
    unfold entriesOf
    rw [List.find?_append]
    by_cases hnm : n = m
    · subst hnm
      rw [find?_name_eq_none hm]
      simp
    · have hsingle : ([(m, ([] : Cache))].find? (fun p => p.1 == n)) = none := by
        rw [List.find?_eq_none]
        intro p hp
        have hp' : p = (m, []) := by simpa using hp
        subst hp'
        simpa using Ne.symm hnm
      rw [hsingle]
      cases cs.find? (fun p => p.1 == n) <;> rfl

theorem mem_cacheNames_cachesOpen (n : String) (cs : CacheStorage) :
    n ∈ cacheNames (cachesOpen n cs) := by
  unfold cachesOpen
  split
  · assumption
  · simp [cacheNames]

theorem cacheNames_modifyCache (name : String) (f : Cache → Cache) (cs : CacheStorage) :
    cacheNames (modifyCache name f cs) = cacheNames cs := by
  unfold cacheNames modifyCache
  rw [List.map_map]
  apply List.map_congr_left
  intro p _
  by_cases h : p.1 = name <;> simp [h]

theorem modifyCache_cons (name : String) (f : Cache → Cache) (m : String)
    (c : Cache) (tl : CacheStorage) :
    modifyCache name f ((m, c) :: tl)
      = (if m = name then (m, f c) else (m, c)) :: modifyCache name f tl := by
  simp [modifyCache]

theorem entriesOf_cons_self (n : String) (c : Cache) (tl : CacheStorage) :
    entriesOf n ((n, c) :: tl) = c := by
  unfold entriesOf
  rw [List.find?_cons_of_pos tl (by simp)]
  rfl

theorem entriesOf_cons_ne {n m : String} (h : m ≠ n) (c : Cache) (tl : CacheStorage) :
    entriesOf n ((m, c) :: tl) = entriesOf n tl := by
  unfold entriesOf
  rw [List.find?_cons_of_neg tl (by simpa using h)]

theorem entriesOf_modifyCache (n : String) (f : Cache → Cache) (cs : CacheStorage)
    (h : n ∈ cacheNames cs) :
    entriesOf n (modifyCache n f cs) = f (entriesOf n cs) := by
  induction cs with
  | nil => simp [cacheNames] at h
  | cons hd tl ih =>
    obtain ⟨m, c⟩ := hd
    rw [modifyCache_cons]
    by_cases hm : m = n
    · subst hm
      rw [if_pos rfl, entriesOf_cons_self, entriesOf_cons_self]
    · have h' : n ∈ cacheNames tl := by
        simp [cacheNames] at h ⊢
        rcases h with h | h
        · exact absurd h.symm hm
        · exact h
      rw [if_neg hm, entriesOf_cons_ne hm, entriesOf_cons_ne hm]
      exact ih h'

theorem fetchEntries_eq_none {net : Network} {us : List Url}
    (h : ∃ u ∈ us, ∀ r, net (getReq u) = some r → r.ok = false) :
    fetchEntries net us = none := by
  induction us with
  | nil => simp at h
  | cons u us ih =>
    obtain ⟨v, hv, hfail⟩ := h
    cases hv with
    | head =>
      unfold fetchEntries
      cases hn : net (getReq u) with
      | none => cases fetchEntries net us <;> rfl
      | some r =>
        cases fetchEntries net us with
        | none => rfl
        | some es => simp [hfail r hn]
    | tail _ hmem =>
      unfold fetchEntries
      rw [ih ⟨v, hmem, hfail⟩]
      cases net (getReq u) <;> rfl

theorem filter_beq_singleton {l : List String} {a : String} (h1 : a ∈ l)
    (h2 : l.Nodup) : l.filter (fun x => x == a) = [a] := by
  induction l with
  | nil => cases h1
  | cons b t ih =>
    rw [List.nodup_cons] at h2
    by_cases hb : b = a
    · subst hb
      have ht : t.filter (fun x => x == b) = [] := by
        rw [List.filter_eq_nil_iff]
        intro x hx hbeq
        have : x = b := by simpa using hbeq
        exact h2.1 (this ▸ hx)
      simp [List.filter_cons, ht]
    · have h1' : a ∈ t := by
        cases h1 with
        | head => exact absurd rfl hb
        | tail _ h => exact h
      have hb' : ¬ (b == a) = true := by simpa using hb
      simp [List.filter_cons, hb', ih h1' h2.2]

theorem fetchEntries_map_fst {net : Network} {us : List Url}
    {es : List (Url × Response)} (h : fetchEntries net us = some es) :
    es.map Prod.fst = us := by
  induction us generalizing es with
  | nil =>
    simp [fetchEntries] at h
    subst h
    rfl
  | cons u us ih =>
    unfold fetchEntries at h
    cases hn : net (getReq u) <;> rw [hn] at h
    · exact absurd h (by simp)
    · cases hf : fetchEntries net us <;> rw [hf] at h
      · exact absurd h (by simp)
      · rename_i r es'
        have h' : (if r.ok = true then some ((u, r) :: es') else none) = some es := h
        cases hok : r.ok <;> rw [hok] at h'
        · exact absurd h' (by simp)
        · simp only [reduceIte] at h'
          have hes : es = (u, r) :: es' := (Option.some.inj h').symm
          subst hes
          rw [List.map_cons, ih hf]

theorem addEntries_eq (es : List (Url × Response)) (c : Cache)
    (h : (es.map Prod.fst).Nodup) :
    addEntries es c
      = c.filter (fun e => decide (e.1 ∉ es.map Prod.fst)) ++ es := by
  induction es generalizing c with
  | nil => simp [addEntries]
  | cons hd tl ih =>
    obtain ⟨u, r⟩ := hd
    rw [List.map_cons, List.nodup_cons] at h
    have hnotmem : u ∉ tl.map Prod.fst := h.1
    show addEntries tl (cachePut u r c) = _
    rw [ih (cachePut u r c) h.2]
    unfold cachePut
    rw [List.filter_append, List.filter_filter]
    have hput : ([((u, r) : Url × Response)].filter
        (fun e => decide (e.1 ∉ tl.map Prod.fst))) = [(u, r)] := by
      simp [hnotmem]
    rw [hput]
    have hcongr : c.filter
        (fun e => decide (e.1 ∉ tl.map Prod.fst) && !(e.1 == u))
        = c.filter (fun e => decide (e.1 ∉ (u, r).1 :: tl.map Prod.fst)) := by
      apply List.filter_congr
      intro e _
      by_cases h1 : e.1 = u <;> by_cases h2 : e.1 ∈ tl.map Prod.fst <;>
        simp [h1, h2, List.mem_cons]
    rw [hcongr]
    simp

theorem addEntries_idem (es : List (Url × Response)) (c : Cache)
    (h : (es.map Prod.fst).Nodup) :
    addEntries es (addEntries es c) = addEntries es c := by
  rw [addEntries_eq es c h, addEntries_eq es _ h, List.filter_append,
    List.filter_filter]
  have h1 : c.filter (fun e =>
      decide (e.1 ∉ es.map Prod.fst) && decide (e.1 ∉ es.map Prod.fst))
      = c.filter (fun e => decide (e.1 ∉ es.map Prod.fst)) := by
    apply List.filter_congr
    intro e _
    cases decide (e.1 ∉ es.map Prod.fst) <;> rfl
  have h2 : es.filter (fun e => decide (e.1 ∉ es.map Prod.fst)) = [] := by
    rw [List.filter_eq_nil_iff]
    intro e he
    simp
    exact ⟨e.2, he⟩
  rw [h1, h2, List.append_nil]

theorem cachesOpen_of_mem {n : String} {cs : CacheStorage}
    (h : n ∈ cacheNames cs) : cachesOpen n cs = cs := by
  unfold cachesOpen
  rw [if_pos h]

theorem modifyCache_comp (n : String) (f g : Cache → Cache) (cs : CacheStorage) :
    modifyCache n f (modifyCache n g cs) = modifyCache n (fun c => f (g c)) cs := by
  unfold modifyCache
  rw [List.map_map]
  apply List.map_congr_left
  intro p _
  by_cases h : p.1 = n <;> simp [h]

theorem installStep_success_eq {net : Network} {es : List (Url × Response)}
    (cs : CacheStorage) (h : fetchEntries net CORE_ASSETS = some es) :
    installStep net cs
      = (true, modifyCache CACHE_NAME (addEntries es) (cachesOpen CACHE_NAME cs)) := by
  simp only [installStep, h]

theorem installStep_true_exists {net : Network} {cs cs' : CacheStorage}
    (h : installStep net cs = (true, cs')) :
    ∃ es, fetchEntries net CORE_ASSETS = some es ∧
      cs' = modifyCache CACHE_NAME (addEntries es) (cachesOpen CACHE_NAME cs) := by
  unfold installStep at h
  cases hf : fetchEntries net CORE_ASSETS <;> rw [hf] at h
  · exact absurd h (by simp)
  · rename_i es
    refine ⟨es, rfl, ?_⟩
    have := (Prod.mk.injEq _ _ _ _).mp h
    exact this.2.symm

theorem mem_cacheNames_after_install {net : Network} {cs cs' : CacheStorage}
    (h : installStep net cs = (true, cs')) : CACHE_NAME ∈ cacheNames cs' := by
  obtain ⟨es, _, hcs'⟩ := installStep_true_exists h
  subst hcs'
  rw [cacheNames_modifyCache]
  exact mem_cacheNames_cachesOpen CACHE_NAME cs

theorem core_asset_cached_after_install {net : Network} {cs cs' : CacheStorage}
    (h : installStep net cs = (true, cs')) {u : Url} (hu : u ∈ CORE_ASSETS) :
    (matchIgnoreSearch (entriesOf CACHE_NAME cs') u).isSome := by
  obtain ⟨es, hf, hcs'⟩ := installStep_true_exists h
  subst hcs'
  rw [entriesOf_modifyCache CACHE_NAME _ _ (mem_cacheNames_cachesOpen CACHE_NAME cs)]
  have hfst : es.map Prod.fst = CORE_ASSETS := fetchEntries_map_fst hf
  have hnodup : (es.map Prod.fst).Nodup := by
    rw [hfst]
    decide
  rw [addEntries_eq _ _ hnodup]
  have hmem : ∃ r, (u, r) ∈ es := by
    have humem : u ∈ es.map Prod.fst := hfst ▸ hu
    obtain ⟨e, he, hfe⟩ := List.mem_map.mp humem
    exact ⟨e.2, by rw [← hfe]; exact he⟩
  obtain ⟨r, hr⟩ := hmem
  unfold matchIgnoreSearch
  have hfind : (((entriesOf CACHE_NAME (cachesOpen CACHE_NAME cs)).filter
      (fun e => decide (e.1 ∉ es.map Prod.fst)) ++ es).find?
      (fun e => e.1.path == u.path)).isSome :=
    List.find?_isSome.mpr ⟨(u, r), List.mem_append_right _ hr, by simp⟩
  obtain ⟨x, hx⟩ := Option.isSome_iff_exists.mp hfind
  rw [hx]
  rfl

/-! Claim theorems. -/

/-- Claim C2: for every intercepted GET request, if the network fetch yields any
HTTP response (including a non-2xx status), the fetch handler returns that
response verbatim, never replacing it by cached content or the offline
document, and leaves the cache storage unchanged. -/
theorem network_response_returned_verbatim (net : Network) (cs : CacheStorage)
    (req : Request) (r : Response) (h1 : req.method = "GET") (h2 : net req = some r) :
    fetchHandler net cs req = (.respond (some r), cs) := by
  simp [fetchHandler, h1, h2]

/-- Witness for C2: a reachable origin answering 404 has its response returned
as-is. -/
theorem network_response_returned_verbatim_witness :
    fetchHandler (fun _ => some ⟨404, "not found"⟩) [] ⟨"GET", ⟨"/about/", some "x=1"⟩⟩
      = (.respond (some ⟨404, "not found"⟩), []) :=
  network_response_returned_verbatim (fun _ => some ⟨404, "not found"⟩) []
    ⟨"GET", ⟨"/about/", some "x=1"⟩⟩ ⟨404, "not found"⟩ rfl rfl

/-- Claim C6: for every request whose method is not GET, the handler passes the
request straight through (no `respondWith`) and the cache storage is
untouched. -/
theorem non_get_passes_through (net : Network) (cs : CacheStorage) (req : Request)
    (h : req.method ≠ "GET") : fetchHandler net cs req = (.passThrough, cs) := by
  simp [fetchHandler, h]

/-- Witness for C6: a POST request passes through untouched. -/
theorem non_get_passes_through_witness :
    fetchHandler (fun _ => none) [("ctc-static-v1", [])] ⟨"POST", ⟨"/about/", none⟩⟩
      = (.passThrough, [("ctc-static-v1", [])]) :=
  non_get_passes_through (fun _ => none) [("ctc-static-v1", [])]
    ⟨"POST", ⟨"/about/", none⟩⟩ (by decide)

/-- Claim C3: on a transport-level network failure for an intercepted GET
request, the handler looks the request up in the current generation ignoring
the query string, returns the stored snapshot when found, and otherwise
returns the result of looking up the offline fallback document, again
ignoring the query string. -/
theorem transport_failure_two_step_fallback (net : Network) (cs : CacheStorage)
    (req : Request) (h1 : req.method = "GET") (h2 : net req = none) :
    (fetchHandler net cs req).1 = .respond
      (match matchIgnoreSearch (entriesOf CACHE_NAME cs) req.url with
       | some r => some r
       | none => matchIgnoreSearch (entriesOf CACHE_NAME cs) OFFLINE_URL) := by
  simp only [fetchHandler, h1, h2]
  rw [entriesOf_cachesOpen]
  cases matchIgnoreSearch (entriesOf CACHE_NAME cs) req.url <;>
    simp [Option.orElse]

/-- Witness for C3: network unreachable, request to `/about/?x=1` with
`/about/` cached returns the cached snapshot (query string ignored). -/
theorem transport_failure_two_step_fallback_witness :
    (fetchHandler (fun _ => none)
      [("ctc-static-v1", [(⟨"/about/", none⟩, ⟨200, "about"⟩)])]
      ⟨"GET", ⟨"/about/", some "x=1"⟩⟩).1 = .respond
      (match matchIgnoreSearch
          (entriesOf CACHE_NAME [("ctc-static-v1", [(⟨"/about/", none⟩, ⟨200, "about"⟩)])])
          (⟨"/about/", some "x=1"⟩ : Url) with
       | some r => some r
       | none => matchIgnoreSearch
          (entriesOf CACHE_NAME [("ctc-static-v1", [(⟨"/about/", none⟩, ⟨200, "about"⟩)])])
          OFFLINE_URL) :=
  transport_failure_two_step_fallback (fun _ => none)
    [("ctc-static-v1", [(⟨"/about/", none⟩, ⟨200, "about"⟩)])]
    ⟨"GET", ⟨"/about/", some "x=1"⟩⟩ rfl rfl

/-- Claim C10: on a transport failure, when the current generation holds
neither a match for the request (ignoring the query string) nor an entry for
the offline document, the handler resolves with no response at all. -/
theorem no_match_no_offline_resolves_undefined (net : Network) (cs : CacheStorage)
    (req : Request) (h1 : req.method = "GET") (h2 : net req = none)
    (h3 : matchIgnoreSearch (entriesOf CACHE_NAME cs) req.url = none)
    (h4 : matchIgnoreSearch (entriesOf CACHE_NAME cs) OFFLINE_URL = none) :
    (fetchHandler net cs req).1 = .respond none := by
  simp only [fetchHandler, h1, h2]
  rw [entriesOf_cachesOpen, h3, h4]
  simp [Option.orElse]

/-- Witness for C10: with no generation installed at all, a failed GET
resolves with no response. -/
theorem no_match_no_offline_resolves_undefined_witness :
    (fetchHandler (fun _ => none) [] ⟨"GET", ⟨"/x", none⟩⟩).1 = .respond none :=
  no_match_no_offline_resolves_undefined (fun _ => none) [] ⟨"GET", ⟨"/x", none⟩⟩
    rfl rfl (by decide) (by decide)

/-- Claim C5: when the current generation exists (as it does after the install
that precedes activation) and cache names are distinct, activation leaves
exactly one generation, named the current version string. -/
theorem activate_leaves_single_generation (cs : CacheStorage)
    (h1 : CACHE_NAME ∈ cacheNames cs) (h2 : (cacheNames cs).Nodup) :
    cacheNames (activateStep cs) = [CACHE_NAME] := by
  unfold activateStep cacheNames
  have hmap : (cs.filter (fun p => p.1 == CACHE_NAME)).map Prod.fst
      = (cs.map Prod.fst).filter (fun x => x == CACHE_NAME) :=
    (@List.filter_map (String × Cache) String (fun x => x == CACHE_NAME)
      Prod.fst cs).symm
  rw [hmap]
  exact filter_beq_singleton h1 h2

/-- Witness for C5: two stale generations and the current one; activation
keeps exactly the current one. -/
theorem activate_leaves_single_generation_witness :
    cacheNames (activateStep [("old-a", []), ("ctc-static-v1", []), ("old-b", [])])
      = [CACHE_NAME] :=
  activate_leaves_single_generation
    [("old-a", []), ("ctc-static-v1", []), ("old-b", [])] (by decide) (by decide)

/-- Claim C7 counterexample: handling an intercepted GET request can change the
cache storage: on a transport failure with no generation present,
`caches.open` inside the handler creates an empty generation, so the storage
after handling differs from the storage before. -/
theorem fetch_handler_cache_counterexample :
    (fetchHandler (fun _ => none) [] ⟨"GET", ⟨"/x", none⟩⟩).2 ≠ ([] : CacheStorage) := by
  decide

/-- Claim C7 amended: the fetch handler never writes an entry to any cache —
every generation's entries are unchanged by handling any request — and
whenever the configured generation already exists (in particular after any
successful install) the cache storage is entirely unchanged; the only
possible change is the creation of an empty generation by `caches.open` on a
transport failure when the generation is absent. -/
theorem fetch_handler_writes_no_entries (net : Network) (cs : CacheStorage)
    (req : Request) :
    (∀ n, entriesOf n (fetchHandler net cs req).2 = entriesOf n cs) ∧
    (CACHE_NAME ∈ cacheNames cs → (fetchHandler net cs req).2 = cs) := by
  constructor
  · intro n
    unfold fetchHandler
    split
    · rfl
    · cases hn : net req
      · simp [entriesOf_cachesOpen]
      · rfl
  · intro h
    unfold fetchHandler
    split
    · rfl
    · cases hn : net req
      · simp [cachesOpen, h]
      · rfl

/-- Witness for C7 amended: with the generation present, handling a failed GET
leaves the storage exactly as it was. -/
theorem fetch_handler_writes_no_entries_witness :
    (fetchHandler (fun _ => none) [("ctc-static-v1", [])] ⟨"GET", ⟨"/x", none⟩⟩).2
      = [("ctc-static-v1", [])] :=
  (fetch_handler_writes_no_entries (fun _ => none) [("ctc-static-v1", [])]
    ⟨"GET", ⟨"/x", none⟩⟩).2 (by decide)

/-- Claim C1 counterexample: starting from a previously active generation
"ctc-static-v0" and a network answering HTTP 404 for every fetch (Scenario
E's trigger, on which `cache.addAll` rejects), the install fails, yet a new,
empty generation named by the current version string is retained in the
storage — the claim's "no partial or empty generation is retained" does not
hold of the code. -/
theorem install_failure_counterexample :
    CACHE_NAME ∉ cacheNames [("ctc-static-v0", [((⟨"/", none⟩ : Url), (⟨200, "old"⟩ : Response))])] ∧
    (installStep (fun _ => some ⟨404, "not found"⟩)
      [("ctc-static-v0", [(⟨"/", none⟩, ⟨200, "old"⟩)])]).1 = false ∧
    CACHE_NAME ∈ cacheNames (installStep (fun _ => some ⟨404, "not found"⟩)
      [("ctc-static-v0", [(⟨"/", none⟩, ⟨200, "old"⟩)])]).2 ∧
    entriesOf CACHE_NAME (installStep (fun _ => some ⟨404, "not found"⟩)
      [("ctc-static-v0", [(⟨"/", none⟩, ⟨200, "old"⟩)])]).2 = [] := by
  refine ⟨by decide, by decide, by decide, by decide⟩

/-- Claim C1 amended: if any fetch of a Core Asset Set URL fails during
install — at the transport level or by yielding a non-2xx response, either
of which makes `cache.addAll` reject — the install fails and no entry is
written to any generation: every generation's contents, in particular the
previously active one's, are exactly as before, so no partial generation is
retained and prior generations keep serving — though `caches.open` may have
left a new empty generation. -/
theorem install_failure_writes_no_entries (net : Network) (cs : CacheStorage)
    (h : ∃ u ∈ CORE_ASSETS, ∀ r, net (getReq u) = some r → r.ok = false) :
    (installStep net cs).1 = false ∧
    (∀ n, entriesOf n (installStep net cs).2 = entriesOf n cs) := by
  unfold installStep
  rw [fetchEntries_eq_none h]
  exact ⟨rfl, fun n => entriesOf_cachesOpen n CACHE_NAME cs⟩

/-- Witness for C1 amended: an install over a network that 404s every asset
fails and leaves the old generation's contents untouched. -/
theorem install_failure_writes_no_entries_witness :
    (installStep (fun _ => some ⟨404, "not found"⟩)
      [("ctc-static-v0", [((⟨"/", none⟩ : Url), (⟨200, "old"⟩ : Response))])]).1 = false ∧
    entriesOf "ctc-static-v0" (installStep (fun _ => some ⟨404, "not found"⟩)
      [("ctc-static-v0", [(⟨"/", none⟩, ⟨200, "old"⟩)])]).2
      = entriesOf "ctc-static-v0" [("ctc-static-v0", [(⟨"/", none⟩, ⟨200, "old"⟩)])] :=
  ⟨(install_failure_writes_no_entries (fun _ => some ⟨404, "not found"⟩)
      [("ctc-static-v0", [(⟨"/", none⟩, ⟨200, "old"⟩)])]
      ⟨⟨"/", none⟩, by decide, fun r hr => by rw [← Option.some.inj hr]; decide⟩).1,
   (install_failure_writes_no_entries (fun _ => some ⟨404, "not found"⟩)
      [("ctc-static-v0", [(⟨"/", none⟩, ⟨200, "old"⟩)])]
      ⟨⟨"/", none⟩, by decide, fun r hr => by rw [← Option.some.inj hr]; decide⟩).2 "ctc-static-v0"⟩

/-- Claim C8: after a successful install, every URL path of the Core Asset
Set is found by a query-string-ignoring lookup in the current generation. -/
theorem install_populates_core_assets (net : Network) (cs cs' : CacheStorage)
    (h : installStep net cs = (true, cs')) :
    ∀ u ∈ CORE_ASSETS, (matchIgnoreSearch (entriesOf CACHE_NAME cs') u).isSome :=
  fun _ hu => core_asset_cached_after_install h hu

/-- Witness for C8: after installing over a fully reachable network,
`/about/` is found in the generation. -/
theorem install_populates_core_assets_witness :
    (matchIgnoreSearch (entriesOf CACHE_NAME
      (installStep (fun r => some ⟨200, r.url.path⟩) []).2) ⟨"/about/", none⟩).isSome :=
  install_populates_core_assets (fun r => some ⟨200, r.url.path⟩) []
    (installStep (fun r => some ⟨200, r.url.path⟩) []).2 rfl
    ⟨"/about/", none⟩ (by decide)

/-- Claim C4: when the install phase completed successfully, producing the
current storage, a transport-level network failure on an intercepted GET
request is never surfaced: the handler always resolves with some response. -/
theorem transport_failure_never_surfaces (net0 net : Network)
    (cs0 cs : CacheStorage) (req : Request)
    (hinst : installStep net0 cs0 = (true, cs)) (hm : req.method = "GET") :
    ∃ r, (fetchHandler net cs req).1 = .respond (some r) := by
  cases hn : net req with
  | some r => exact ⟨r, by simp [fetchHandler, hm, hn]⟩
  | none =>
    have hoff := core_asset_cached_after_install hinst
      (show OFFLINE_URL ∈ CORE_ASSETS by decide)
    obtain ⟨roff, hroff⟩ := Option.isSome_iff_exists.mp hoff
    cases hc : matchIgnoreSearch (entriesOf CACHE_NAME cs) req.url with
    | some rc =>
      exact ⟨rc, by simp [fetchHandler, hm, hn, entriesOf_cachesOpen, hc,
        Option.orElse]⟩
    | none =>
      exact ⟨roff, by simp [fetchHandler, hm, hn, entriesOf_cachesOpen, hc,
        hroff, Option.orElse]⟩

/-- Witness for C4: after a successful install, a GET to an uncached path
over a dead network still resolves with some response. -/
theorem transport_failure_never_surfaces_witness :
    ∃ r, (fetchHandler (fun _ => none)
      (installStep (fun q => some ⟨200, q.url.path⟩) []).2
      ⟨"GET", ⟨"/nonexistent-page", none⟩⟩).1 = .respond (some r) :=
  transport_failure_never_surfaces (fun q => some ⟨200, q.url.path⟩)
    (fun _ => none) []
    (installStep (fun q => some ⟨200, q.url.path⟩) []).2
    ⟨"GET", ⟨"/nonexistent-page", none⟩⟩ rfl rfl

/-- Claim C9: install is idempotent: when an install has succeeded, running
the install phase again for the same version over the same network succeeds
and leaves the cache state exactly as after the single install, neither
duplicating entries nor erroring. -/
theorem install_idempotent (net : Network) (cs cs1 : CacheStorage)
    (h : installStep net cs = (true, cs1)) :
    installStep net cs1 = (true, cs1) := by
  obtain ⟨es, hf, hcs1⟩ := installStep_true_exists h
  have hnodup : (es.map Prod.fst).Nodup := by
    rw [fetchEntries_map_fst hf]
    decide
  subst hcs1
  rw [installStep_success_eq _ hf]
  have hmem : CACHE_NAME ∈ cacheNames
      (modifyCache CACHE_NAME (addEntries es) (cachesOpen CACHE_NAME cs)) := by
    rw [cacheNames_modifyCache]
    exact mem_cacheNames_cachesOpen CACHE_NAME cs
  rw [cachesOpen_of_mem hmem, modifyCache_comp]
  have hfun : (fun c => addEntries es (addEntries es c)) = addEntries es := by
    funext c
    exact addEntries_idem es c hnodup
  rw [hfun]

/-- Witness for C9: installing a second time on the state left by a first
successful install succeeds and changes nothing. -/
theorem install_idempotent_witness :
    installStep (fun q => some ⟨200, q.url.path⟩)
      (installStep (fun q => some ⟨200, q.url.path⟩) []).2
      = (true, (installStep (fun q => some ⟨200, q.url.path⟩) []).2) :=
  install_idempotent (fun q => some ⟨200, q.url.path⟩) []
    (installStep (fun q => some ⟨200, q.url.path⟩) []).2 rfl

end CtcSW
